import Mathlib

/-!
Verification of the μ-law codec and media-envelope layer of the
AI-voice-agent test scripts.

The encoder `linear_to_mulaw` is translated from `fake_call.py` (lines
40-71); the decoder `mulaw_to_linear_float` from `test_flow.py` (lines
13-26); the receive loop `listenFrom` from `fake_call.py`'s `listen`
(lines 117-130); the envelopes `serialize` builds are the three dict
literals of `fake_call.py` (lines 136-145, 168-172, 185-188), modelled at
the parsed-JSON-value level (a `Json` tree stands for the `json.dumps` /
`json.loads` image of the dict).

Numpy dtype semantics are made explicit: `np.int16` values are `Int`s
produced by `toInt16`; `np.abs` on `int16` wraps at `-32768` (`absInt16`);
`int32` right shift is arithmetic (floor, `Int.fdiv`); `& 0xF` on `int32`
is a nonnegative remainder (`Int.emod`); and every `uint8` operation in
the decoder reduces modulo 256 (`decodeMagnitude`).  Floating point does
not matter for the decoder's exactness: every decoded sample is an integer
in `[-255, 255]` divided by `32768`, which `float32` represents exactly,
so the normalized output is modelled in `ℚ`.
-/

namespace FakeCall

/-! ### `np.frombuffer(..., dtype=np.int16)`: little-endian byte pairs -/

/-- Value of a little-endian byte pair as a signed 16-bit integer
(one element of `np.frombuffer(pcm_bytes, dtype=np.int16)`). -/
def toInt16 (lo hi : Nat) : Int :=
  let u := lo % 256 + 256 * (hi % 256)
  if u < 32768 then (u : Int) else (u : Int) - 65536

/-- Group a byte list into consecutive little-endian pairs. -/
def toPairs : List Nat → List (Nat × Nat)
  | a :: b :: rest => (a, b) :: toPairs rest
  | _ => []

/-- `np.frombuffer(bs, dtype=np.int16)`: fails (raises `ValueError`) unless
the buffer length is a multiple of the 2-byte item size. -/
def frombuffer_int16 (bs : List Nat) : Except String (List Int) :=
  if bs.length % 2 = 0 then
    Except.ok ((toPairs bs).map fun p => toInt16 p.1 p.2)
  else
    Except.error "buffer size must be a multiple of element size"

/-! ### Encoder `linear_to_mulaw` (fake_call.py, lines 40-71) -/

/-- `np.abs` on an `int16` array wraps: `abs(-32768) = -32768` (the absolute
value is computed in 16-bit arithmetic before the `astype(np.int32)` cast). -/
def absInt16 (x : Int) : Int :=
  if x = -32768 then -32768 else (x.natAbs : Int)

/-- Threshold table of the exponent scan: `256 << e`. -/
def muThreshold (e : Nat) : Nat := 256 <<< e

/-- One iteration of the exponent loop: `mask = (temp >= (256 << e)) &
(exponent == 0); exponent[mask] = e`. -/
def muStep (B : Int) (acc e : Nat) : Nat :=
  if (muThreshold e : Int) ≤ B ∧ acc = 0 then e else acc

/-- The exponent loop of `linear_to_mulaw`: scan `e` from 7 down to 0 and
record the first `e` with `(256 << e) <= B` (the `exponent == 0` mask keeps
later, smaller, matches from overwriting it); default 0. -/
def muExponent (B : Int) : Nat :=
  (List.range 8).reverse.foldl (muStep B) 0

/-- Per-sample body of `linear_to_mulaw`: sign, wrapped 16-bit absolute value,
clip to 32635, bias by 132 (0x84), exponent scan, 4-bit mantissa, assemble
`sign<<7 | exponent<<4 | mantissa`, one's complement, mask to 8 bits. -/
def linear_to_mulaw_sample (x : Int) : Nat :=
  let s : Nat := if x < 0 then 1 else 0
  let magnitude : Int := min (absInt16 x) 32635 + 132
  let e : Nat := muExponent magnitude
  let mant : Nat := ((Int.fdiv magnitude (2 ^ (e + 3))) % 16).toNat
  let assembled : Nat := Nat.lor (Nat.lor (s <<< 7) (e <<< 4)) mant
  ((-(assembled : Int) - 1) % 256).toNat

/-- The odd-length guard: `if len(pcm_bytes) % 2 != 0: pcm_bytes = pcm_bytes[:-1]`. -/
def truncateEven (bs : List Nat) : List Nat :=
  if bs.length % 2 ≠ 0 then bs.dropLast else bs

/-- Body of `linear_to_mulaw` with its one fallible step (`np.frombuffer`)
made explicit; the surrounding `try` of the source catches any error. -/
def linear_to_mulaw_checked (bs : List Nat) : Except String (List Nat) :=
  if bs.length = 0 then Except.ok [] else
  match frombuffer_int16 (truncateEven bs) with
  | Except.ok pcm => Except.ok (pcm.map linear_to_mulaw_sample)
  | Except.error e => Except.error e

/-- `linear_to_mulaw` as seen by callers: the `except Exception` handler of
the source logs the error (the `CodecFailure` signal) and returns the empty
buffer `b''`. -/
def linear_to_mulaw (bs : List Nat) : List Nat :=
  match linear_to_mulaw_checked bs with
  | Except.ok r => r
  | Except.error _ => []

/-! ### Decoder `mulaw_to_linear_float` (test_flow.py, lines 13-26) -/

/-- Magnitude reconstruction `((mantissa << 4) + 8) << (exponent + 2)` as the
decoder actually computes it: in `uint8` arithmetic, each step modulo 256. -/
def decodeMagnitude (m e : Nat) : Nat :=
  ((((m <<< 4) % 256 + 8) % 256) <<< (e + 2)) % 256

/-- Per-byte decode: xor with 0xFF, extract sign (bit 7), exponent (bits 6-4)
and mantissa (bits 3-0), reconstruct the magnitude in `uint8` arithmetic,
cast to `int16`, negate where the sign bit is set. -/
def mulaw_to_linear_int (b : Nat) : Int :=
  let u := (b % 256) ^^^ 255
  let sign := u &&& 0x80
  let exponent := (u &&& 0x70) >>> 4
  let mantissa := u &&& 0x0F
  let magnitude := decodeMagnitude mantissa exponent
  if sign ≠ 0 then -(magnitude : Int) else (magnitude : Int)

/-- `mulaw_to_linear_float`: the decoded `int16` buffer normalized to
`[-1.0, 1.0]` by dividing by 32768 (exact in `float32`, modelled in `ℚ`). -/
def mulaw_to_linear_float (bs : List Nat) : List ℚ :=
  bs.map fun b => ((mulaw_to_linear_int b : ℚ) / 32768)

/-! ### Reference definitions following the specification's words

These are deliberately written from the spec sentences (not from the numpy
code) so the claims comparing the code against the documented per-sample /
per-byte algorithm can be stated as refinements. -/

/-- Encoder step exactly as the spec words it: sign bit, true absolute
magnitude, clip to 32635, bias 132, first `e` from 7 down to 0 with
`(256 << e) <= biased` (default 0), `mantissa = (biased >> (e+3)) & 0xF`,
assemble `sign<<7 | exponent<<4 | mantissa` and one's-complement to 8 bits. -/
def spec_linear_to_mulaw_sample (x : Int) : Nat :=
  let s : Nat := if x < 0 then 1 else 0
  let mag : Nat := min x.natAbs 32635 + 132
  let e : Nat := (((List.range 8).reverse.find? fun e => decide (muThreshold e ≤ mag)).getD 0)
  let m : Nat := (mag >>> (e + 3)) &&& 0x0F
  (((s <<< 7) ||| (e <<< 4)) ||| m) ^^^ 255

/-- Decoder magnitude formula exactly as the spec words it (no 8-bit wrap):
`((mantissa << 4) + 8) << (exponent + 2)`. -/
def spec_decode_magnitude (m e : Nat) : Nat :=
  ((m <<< 4) + 8) <<< (e + 2)

/-- Per-byte decode exactly as the spec words it: invert, split fields, the
unwrapped magnitude formula, negate on sign. -/
def spec_mulaw_to_linear_int (b : Nat) : Int :=
  let u := (b % 256) ^^^ 255
  let sign := u &&& 0x80
  let exponent := (u &&& 0x70) >>> 4
  let mantissa := u &&& 0x0F
  if sign ≠ 0 then -(spec_decode_magnitude mantissa exponent : Int)
  else (spec_decode_magnitude mantissa exponent : Int)

/-- Spec-worded decode normalized by 32768. -/
def spec_mulaw_to_linear_float (bs : List Nat) : List ℚ :=
  bs.map fun b => ((spec_mulaw_to_linear_int b : ℚ) / 32768)

/-! ### Base64 (RFC 4648, as `base64.b64encode` / `base64.b64decode`) -/

/-- The standard base64 alphabet. -/
def b64chars : List Char :=
  "ABCDEFGHIJKLMNOPQRSTUVWXYZabcdefghijklmnopqrstuvwxyz0123456789+/".toList

/-- Character for a 6-bit group. -/
def b64ch (i : Nat) : Char := b64chars.getD i 'A'

/-- Index of a character in the alphabet, `none` for a non-alphabet char. -/
def decChar (c : Char) : Option Nat := b64chars.findIdx? (fun c' => c' = c)

/-- `base64.b64encode`: 3 bytes to 4 chars, with `=` padding for a 1- or
2-byte tail. -/
def b64encode : List Nat → List Char
  | a :: b :: c :: rest =>
    b64ch (a / 4) :: b64ch (a % 4 * 16 + b / 16) :: b64ch (b % 16 * 4 + c / 64) ::
      b64ch (c % 64) :: b64encode rest
  | [a, b] => [b64ch (a / 4), b64ch (a % 4 * 16 + b / 16), b64ch (b % 16 * 4), '=']
  | [a] => [b64ch (a / 4), b64ch (a % 4 * 16), '=', '=']
  | [] => []

/-- Base64 decoding of 4-char groups, honouring `=` padding; `none` on any
malformed group (the `MalformedEnvelope` case of the adapter). -/
def b64decode : List Char → Option (List Nat)
  | [] => some []
  | c0 :: c1 :: c2 :: c3 :: rest =>
    let tail := b64decode rest
    (decChar c0).bind fun v0 =>
    (decChar c1).bind fun v1 =>
    if c2 = '=' then
      if c3 = '=' ∧ rest = [] then some [v0 * 4 + v1 / 16] else none
    else
      (decChar c2).bind fun v2 =>
      if c3 = '=' then
        if rest = [] then some [v0 * 4 + v1 / 16, v1 % 16 * 16 + v2 / 4] else none
      else
        (decChar c3).bind fun v3 =>
        tail.bind fun rs =>
        some ((v0 * 4 + v1 / 16) :: (v1 % 16 * 16 + v2 / 4) :: (v2 % 4 * 64 + v3) :: rs)
  | _ => none

/-! ### JSON values and media envelopes -/

/-- A parsed JSON value (the fragment the scripts use). -/
inductive Json where
  | str : String → Json
  | num : Int → Json
  | obj : List (String × Json) → Json
  | arr : List Json → Json

/-- First binding of a key in an object's field list. -/
def lookupField : List (String × Json) → String → Option Json
  | [], _ => none
  | (k, v) :: rest, key => if k = key then some v else lookupField rest key

/-- `obj.get(key)`: `none` when the value is not an object or lacks the key. -/
def Json.getField : Json → String → Option Json
  | Json.obj fields, key => lookupField fields key
  | _, _ => none

/-- Python `len` on a parsed JSON value: defined for strings, arrays and
objects; a `TypeError` (modelled as `none`) otherwise. -/
def jsonLen : Json → Option Nat
  | Json.str s => some s.length
  | Json.obj fs => some fs.length
  | Json.arr l => some l.length
  | Json.num _ => none

/-- The three event kinds of the wire protocol. -/
inductive EventKind where
  | start
  | media
  | stop
deriving DecidableEq

/-- Session metadata carried by start/stop envelopes (opaque pass-through). -/
structure SessionMeta where
  callSid : String
  fromNumber : String
  toNumber : String
  customParameters : List (String × String)

/-- The envelopes the scripts serialize, verbatim from the three dict
literals in `fake_call.py` (start: lines 136-145; media: lines 168-172;
stop: lines 185-188), as parsed JSON values. -/
def serialize (kind : EventKind) (streamSid : String) (payload : List Nat)
    (meta : SessionMeta) : Json :=
  match kind with
  | EventKind.start =>
    Json.obj [("event", Json.str "start"),
      ("start", Json.obj [("callSid", Json.str meta.callSid),
        ("streamSid", Json.str streamSid),
        ("from", Json.str meta.fromNumber),
        ("to", Json.str meta.toNumber),
        ("customParameters",
          Json.obj (meta.customParameters.map fun kv => (kv.1, Json.str kv.2)))])]
  | EventKind.media =>
    Json.obj [("event", Json.str "media"),
      ("streamSid", Json.str streamSid),
      ("media", Json.obj [("payload", Json.str (String.mk (b64encode payload)))])]
  | EventKind.stop =>
    Json.obj [("event", Json.str "stop"),
      ("stop", Json.obj [("callSid", Json.str meta.callSid)])]

/-- Modelled from the spec: section 4.2's `Deserialize(textual envelope) →
(event-kind, stream-id, optional payload bytes)` — no symbol under `src/`
returns this triple (the receive loops only test `event` and read
`media.payload`), so the extraction is taken from the spec's words: the
`event` discriminator, the top-level `streamSid` wire field of section 6,
and, for `media`, the base64-decoded payload; any parse failure (unknown
discriminator, undecodable payload) is the `MalformedEnvelope` outcome,
modelled as `none`. -/
def deserialize (j : Json) : Option (EventKind × Option String × Option (List Nat)) :=
  match j.getField "event" with
  | some (Json.str e) =>
    let sid : Option String :=
      match j.getField "streamSid" with
      | some (Json.str s) => some s
      | _ => none
    if e = "start" then some (EventKind.start, sid, none)
    else if e = "media" then
      match j.getField "media" with
      | some m =>
        match m.getField "payload" with
        | some (Json.str p) =>
          match b64decode p.toList with
          | some bytes => some (EventKind.media, sid, some bytes)
          | none => none
        | _ => some (EventKind.media, sid, none)
      | none => some (EventKind.media, sid, none)
    else if e = "stop" then some (EventKind.stop, sid, none)
    else none
  | _ => none

/-- The session constants of `fake_call.py` (the `CALL_SID` time suffix is
representative). -/
def metaSim : SessionMeta :=
  { callSid := "SIM_TEST_0000000000"
    fromNumber := "+1234567890"
    toNumber := "+13614507995"
    customParameters := [("caller_email", "customer@example.com")] }

/-! ### The `listen` receive loop (fake_call.py, lines 117-130)

One inbound text either parses to a JSON value (`some j`) or not (`none`,
in which case `json.loads` raises).  The `try` of the source wraps the
whole `while True`, so any exception ends the loop; the loop body counts a
message when `obj.get("event") == "media" and "media" in obj`, and then
reads `len(obj["media"]["payload"])` (the count was already incremented if
that read raises). -/

/-- `obj.get("event") == "media"`. -/
def eventIsMedia (j : Json) : Bool :=
  match j.getField "event" with
  | some (Json.str s) => s = "media"
  | _ => false

/-- The listener loop over a finite inbound message sequence; returns the
final `ai_response_count`. -/
def listenFrom (count : Nat) : List (Option Json) → Nat
  | [] => count
  | Option.none :: _ => count
  | Option.some j :: rest =>
    match j with
    | Json.obj _ =>
      if eventIsMedia j && (j.getField "media").isSome then
        match j.getField "media" with
        | some (Json.obj mf) =>
          match lookupField mf "payload" with
          | some v =>
            match jsonLen v with
            | some _ => listenFrom (count + 1) rest
            | none => count + 1
          | none => count + 1
        | _ => count + 1
      else listenFrom count rest
    | _ => count

/-- The count after listening from zero. -/
def listenCount (msgs : List (Option Json)) : Nat := listenFrom 0 msgs

/-- A well-formed media envelope as the server would send it. -/
def goodMediaMsg : Json :=
  Json.obj [("event", Json.str "media"),
    ("streamSid", Json.str "SIM_STREAM_001"),
    ("media", Json.obj [("payload", Json.str "AAAA")])]

/-! ### Helper lemmas -/

theorem truncateEven_even (bs : List Nat) : (truncateEven bs).length % 2 = 0 := by
  unfold truncateEven
  split
  · rename_i h
    rw [List.length_dropLast]
    omega
  · omega

theorem linear_to_mulaw_checked_ok (bs : List Nat) :
    linear_to_mulaw_checked bs =
      Except.ok (((toPairs (truncateEven bs)).map fun p => toInt16 p.1 p.2).map
        linear_to_mulaw_sample) := by
  unfold linear_to_mulaw_checked frombuffer_int16
  rw [if_pos (truncateEven_even bs)]
  split
  · rename_i h
    have : bs = [] := List.length_eq_zero.mp h
    subst this
    simp [truncateEven, toPairs]
  · rfl

theorem linear_to_mulaw_eq (bs : List Nat) :
    linear_to_mulaw bs =
      ((toPairs (truncateEven bs)).map fun p => toInt16 p.1 p.2).map
        linear_to_mulaw_sample := by
  unfold linear_to_mulaw
  rw [linear_to_mulaw_checked_ok]

theorem foldl_acc_mem (B : Int) (l : List Nat) (acc : Nat) :
    l.foldl (muStep B) acc = acc ∨ l.foldl (muStep B) acc ∈ l := by
  induction l generalizing acc with
  | nil => left; rfl
  | cons e l ih =>
    rw [List.foldl_cons]
    rcases ih (muStep B acc e) with h | h
    · rw [h]
      unfold muStep
      split
      · right; exact List.mem_cons_self _ _
      · left; rfl
    · right; exact List.mem_cons_of_mem _ h

theorem muExponent_le_six (B : Int) (hB : B < 32768) : muExponent B ≤ 6 := by
  have hthr : (muThreshold 7 : Int) = 32768 := by decide
  unfold muExponent
  rw [(by decide : (List.range 8).reverse = [7, 6, 5, 4, 3, 2, 1, 0])]
  rw [List.foldl_cons]
  have h7 : muStep B 0 7 = 0 := by
    unfold muStep
    rw [if_neg]
    rintro ⟨hc, -⟩
    omega
  rw [h7]
  rcases foldl_acc_mem B [6, 5, 4, 3, 2, 1, 0] 0 with h | h
  · omega
  · simp only [List.mem_cons, List.not_mem_nil, or_false] at h
    rcases h with h | h | h | h | h | h | h <;> omega

theorem byte_field_fin : ∀ (s : Fin 2) (e : Fin 7) (m : Fin 16),
    (((((-((Nat.lor (Nat.lor ((s : Nat) <<< 7) ((e : Nat) <<< 4)) (m : Nat) : Nat) : Int) - 1) % 256).toNat
      ^^^ 255) >>> 4) &&& 7) ≤ 6 := by decide

theorem byte_field_nat (s e m : Nat) (hs : s < 2) (he : e < 7) (hm : m < 16) :
    (((((-((Nat.lor (Nat.lor (s <<< 7) (e <<< 4)) m : Nat) : Int) - 1) % 256).toNat
      ^^^ 255) >>> 4) &&& 7) ≤ 6 :=
  byte_field_fin ⟨s, hs⟩ ⟨e, he⟩ ⟨m, hm⟩

theorem sample_exp_le (x : Int) :
    (((linear_to_mulaw_sample x ^^^ 255) >>> 4) &&& 7) ≤ 6 := by
  simp only [linear_to_mulaw_sample]
  apply byte_field_nat
  · split <;> omega
  · have hmag : min (absInt16 x) 32635 + 132 < 32768 := by
      have := min_le_right (absInt16 x) 32635
      omega
    exact Nat.lt_succ_of_le (muExponent_le_six _ hmag)
  · have h1 : (Int.fdiv (min (absInt16 x) 32635 + 132)
        (2 ^ (muExponent (min (absInt16 x) 32635 + 132) + 3))) % 16 < 16 :=
      Int.emod_lt_of_pos _ (by norm_num)
    have h2 : 0 ≤ (Int.fdiv (min (absInt16 x) 32635 + 132)
        (2 ^ (muExponent (min (absInt16 x) 32635 + 132) + 3))) % 16 :=
      Int.emod_nonneg _ (by norm_num)
    omega

theorem decodeMagnitude_lt (m e : Nat) : decodeMagnitude m e < 256 := by
  unfold decodeMagnitude
  exact Nat.mod_lt _ (by norm_num)

theorem mulaw_int_range (b : Nat) :
    -255 ≤ mulaw_to_linear_int b ∧ mulaw_to_linear_int b ≤ 255 := by
  simp only [mulaw_to_linear_int]
  have h := decodeMagnitude_lt (((b % 256) ^^^ 255) &&& 0x0F)
    ((((b % 256) ^^^ 255) &&& 0x70) >>> 4)
  split <;> omega

theorem decChar_b64ch : ∀ i : Fin 64, decChar (b64ch (i : Nat)) = some (i : Nat) := by decide

theorem b64ch_ne_eq : ∀ i : Fin 64, b64ch (i : Nat) ≠ '=' := by decide

theorem decChar_b64ch' (i : Nat) (h : i < 64) : decChar (b64ch i) = some i :=
  decChar_b64ch ⟨i, h⟩

theorem b64ch_ne_eq' (i : Nat) (h : i < 64) : b64ch i ≠ '=' :=
  b64ch_ne_eq ⟨i, h⟩

theorem b64_decode_encode : ∀ l : List Nat, (∀ b ∈ l, b < 256) →
    b64decode (b64encode l) = some l
  | [] => fun _ => rfl
  | [a] => fun h => by
    have ha : a < 256 := h a (by simp)
    simp only [b64encode, b64decode]
    rw [decChar_b64ch' (a / 4) (by omega), decChar_b64ch' (a % 4 * 16) (by omega)]
    simp only [Option.some_bind]
    simp
    omega
  | [a, b] => fun h => by
    have ha : a < 256 := h a (by simp)
    have hb : b < 256 := h b (by simp)
    simp only [b64encode, b64decode]
    rw [decChar_b64ch' (a / 4) (by omega), decChar_b64ch' (a % 4 * 16 + b / 16) (by omega)]
    simp only [Option.some_bind]
    rw [if_neg (b64ch_ne_eq' (b % 16 * 4) (by omega))]
    rw [decChar_b64ch' (b % 16 * 4) (by omega)]
    simp only [Option.some_bind]
    simp
    constructor <;> omega
  | a :: b :: c :: rest => fun h => by
    have ha : a < 256 := h a (by simp)
    have hb : b < 256 := h b (by simp)
    have hc : c < 256 := h c (by simp)
    have ih := b64_decode_encode rest (fun y hy => h y (by simp [hy]))
    simp only [b64encode, b64decode]
    rw [decChar_b64ch' (a / 4) (by omega), decChar_b64ch' (a % 4 * 16 + b / 16) (by omega)]
    simp only [Option.some_bind]
    rw [if_neg (b64ch_ne_eq' (b % 16 * 4 + c / 64) (by omega))]
    rw [decChar_b64ch' (b % 16 * 4 + c / 64) (by omega)]
    simp only [Option.some_bind]
    rw [if_neg (b64ch_ne_eq' (c % 64) (by omega))]
    rw [decChar_b64ch' (c % 64) (by omega)]
    simp only [Option.some_bind]
    rw [ih]
    simp only [Option.some_bind]
    refine congrArg some (List.cons_eq_cons.mpr ⟨by omega, List.cons_eq_cons.mpr ⟨by omega,
      List.cons_eq_cons.mpr ⟨by omega, rfl⟩⟩⟩)

/-! ### Claims -/

/-- C1: the spec's round-trip property — `decode(encode(x))` within μ-law
companding tolerance, monotonically ordered and sign-preserving — is
violated by the code: the decoder's `uint8` arithmetic wraps the
reconstructed magnitude modulo 256, so the full-scale samples 32767 (bytes
`ff 7f`) and -32767 (bytes `01 80`) both round-trip to 0 (a full-scale
error, and a lost sign for -32767), while 100 round-trips to 96 — so
100 < 32767 maps to 96 > 0 and the mapping is not monotone either. -/
theorem c1_roundtrip_code_bug :
    toInt16 255 127 = 32767 ∧ toInt16 1 128 = -32767 ∧ toInt16 100 0 = 100 ∧
    mulaw_to_linear_float (linear_to_mulaw [255, 127]) = [0] ∧
    mulaw_to_linear_float (linear_to_mulaw [1, 128]) = [0] ∧
    mulaw_to_linear_float (linear_to_mulaw [100, 0]) = [(96 : ℚ) / 32768] := by
  have e1 : linear_to_mulaw [255, 127] = [144] := by decide
  have e2 : linear_to_mulaw [1, 128] = [16] := by decide
  have e3 : linear_to_mulaw [100, 0] = [242] := by decide
  have d1 : mulaw_to_linear_int 144 = 0 := by decide
  have d2 : mulaw_to_linear_int 16 = 0 := by decide
  have d3 : mulaw_to_linear_int 242 = 96 := by decide
  refine ⟨by decide, by decide, by decide, ?_, ?_, ?_⟩ <;>
    simp [e1, e2, e3, mulaw_to_linear_float, d1, d2, d3]

/-- C2: the encoder does not implement the spec's per-sample algorithm on
the sample -32768 (bytes `00 80`): `np.abs` on `int16` wraps, leaving the
magnitude at -32768, so the clip/bias/exponent chain sees a negative
magnitude and emits 0x7F (127), while the spec's algorithm (true absolute
magnitude 32768, clipped to 32635) emits 0x10 (16). -/
theorem c2_encoder_abs_code_bug :
    toInt16 0 128 = -32768 ∧
    linear_to_mulaw [0, 128] = [127] ∧
    spec_linear_to_mulaw_sample (-32768) = 16 ∧
    linear_to_mulaw_sample (-32768) ≠ spec_linear_to_mulaw_sample (-32768) := by
  refine ⟨by decide, by decide, by decide, by decide⟩

/-- C3: the decoder does not compute the spec's per-byte formula: for the
code byte 0xF0 (240), which un-complements to sign 0, exponent 0,
mantissa 15, the `uint8` arithmetic yields magnitude 224 (normalized
224/32768), while the formula `((15 << 4) + 8) << 2` yields 992. -/
theorem c3_decoder_formula_code_bug :
    mulaw_to_linear_float [240] = [(224 : ℚ) / 32768] ∧
    spec_mulaw_to_linear_float [240] = [(992 : ℚ) / 32768] ∧
    (224 : ℚ) / 32768 ≠ (992 : ℚ) / 32768 := by
  have h1 : mulaw_to_linear_int 240 = 224 := by decide
  have h2 : spec_mulaw_to_linear_int 240 = 992 := by decide
  exact ⟨by simp [mulaw_to_linear_float, h1], by simp [spec_mulaw_to_linear_float, h2],
    by norm_num⟩

/-- C4: the decoder's reconstructed magnitude is the formula
`((mantissa << 4) + 8) << (exponent + 2)` reduced modulo 256 (uint8
arithmetic); hence every decoded integer sample lies in [-255, 255] and
every normalized sample in [-255/32768, 255/32768]; and the code byte 0xF0
(mantissa 15, exponent 0) decodes to magnitude 224 where the unwrapped
formula gives 992. -/
theorem c4_decoder_uint8_wrap :
    (∀ (m : Fin 16) (e : Fin 8),
      decodeMagnitude (m : Nat) (e : Nat) = spec_decode_magnitude (m : Nat) (e : Nat) % 256) ∧
    (∀ b : Nat, -255 ≤ mulaw_to_linear_int b ∧ mulaw_to_linear_int b ≤ 255) ∧
    (∀ (bs : List Nat) (q : ℚ), q ∈ mulaw_to_linear_float bs →
      -(255 : ℚ) / 32768 ≤ q ∧ q ≤ (255 : ℚ) / 32768) ∧
    mulaw_to_linear_int 240 = 224 ∧ spec_decode_magnitude 15 0 = 992 := by
  refine ⟨by decide, mulaw_int_range, ?_, by decide, by decide⟩
  intro bs q hq
  rcases List.mem_map.mp hq with ⟨b, -, rfl⟩
  have h := mulaw_int_range b
  constructor
  · have h1 : ((-255 : Int) : ℚ) ≤ ((mulaw_to_linear_int b : Int) : ℚ) := by
      exact_mod_cast h.1
    calc -(255 : ℚ) / 32768 = ((-255 : Int) : ℚ) / 32768 := by norm_num
    _ ≤ ((mulaw_to_linear_int b : Int) : ℚ) / 32768 := by gcongr
  · have h1 : ((mulaw_to_linear_int b : Int) : ℚ) ≤ ((255 : Int) : ℚ) := by
      exact_mod_cast h.2
    calc ((mulaw_to_linear_int b : Int) : ℚ) / 32768 ≤ ((255 : Int) : ℚ) / 32768 := by gcongr
    _ = (255 : ℚ) / 32768 := by norm_num

/-- Witness for C4 at the concrete buffer [0xF0]: 224/32768 is a decoded
sample and lies in the stated normalized range. -/
theorem c4_decoder_uint8_wrap_witness :
    (224 : ℚ) / 32768 ∈ mulaw_to_linear_float [240] ∧
    (-(255 : ℚ) / 32768 ≤ (224 : ℚ) / 32768 ∧ (224 : ℚ) / 32768 ≤ (255 : ℚ) / 32768) := by
  have h1 : mulaw_to_linear_int 240 = 224 := by decide
  have hmem : (224 : ℚ) / 32768 ∈ mulaw_to_linear_float [240] := by
    simp [mulaw_to_linear_float, h1]
  exact ⟨hmem, c4_decoder_uint8_wrap.2.2.1 [240] _ hmem⟩

/-- C5: every byte the encoder emits, once un-complemented (xor 0xFF), has
an exponent field (bits 6-4) of at most 6: the scan threshold for e = 7 is
256 << 7 = 32768, while the biased magnitude is at most 32635 + 132 =
32767, so exponent 7 is unreachable. -/
theorem c5_exponent_le_six (bs : List Nat) (y : Nat) (hy : y ∈ linear_to_mulaw bs) :
    (((y ^^^ 255) >>> 4) &&& 7) ≤ 6 := by
  rw [linear_to_mulaw_eq] at hy
  rcases List.mem_map.mp hy with ⟨x, -, rfl⟩
  exact sample_exp_le x

/-- Witness for C5: the byte 0x90 emitted for the sample 32767 has
exponent field 6. -/
theorem c5_exponent_le_six_witness :
    144 ∈ linear_to_mulaw [255, 127] ∧ (((144 ^^^ 255) >>> 4) &&& 7) ≤ 6 :=
  ⟨by decide, c5_exponent_le_six [255, 127] 144 (by decide)⟩

/-- C6: encoding the empty buffer yields the empty buffer, decoding the
empty buffer yields the empty buffer, and on any odd-length byte buffer the
encoder returns exactly the encoding of the first (length - 1) bytes: the
trailing byte is discarded silently before processing. -/
theorem c6_empty_and_odd_truncation :
    linear_to_mulaw [] = [] ∧ mulaw_to_linear_float [] = [] ∧
    ∀ bs : List Nat, bs.length % 2 = 1 →
      linear_to_mulaw bs = linear_to_mulaw (bs.take (bs.length - 1)) := by
  refine ⟨by decide, rfl, ?_⟩
  intro bs h
  rw [linear_to_mulaw_eq, linear_to_mulaw_eq]
  have h1 : truncateEven bs = bs.take (bs.length - 1) := by
    unfold truncateEven
    rw [if_pos (by omega)]
    exact List.dropLast_eq_take bs
  have h2 : truncateEven (bs.take (bs.length - 1)) = bs.take (bs.length - 1) := by
    unfold truncateEven
    rw [if_neg]
    rw [List.length_take]
    omega
  rw [h1, h2]

/-- Witness for C6 at the odd-length buffer [1, 2, 3]. -/
theorem c6_empty_and_odd_truncation_witness :
    [1, 2, 3].length % 2 = 1 ∧
    linear_to_mulaw [1, 2, 3] = linear_to_mulaw ([1, 2, 3].take ([1, 2, 3].length - 1)) :=
  ⟨by decide, c6_empty_and_odd_truncation.2.2 [1, 2, 3] (by decide)⟩

/-- C7: the encoder never raises to its caller: for every input buffer the
fallible body (whose one raising operation, `np.frombuffer`, fails exactly
on buffers that are not a multiple of the 2-byte item size) succeeds — the
guards make the error branch unreachable — and the caller-visible
`linear_to_mulaw` is that success value; the wrapper's error case (the
logged `CodecFailure` branch of the source's catch-all) returns the empty
buffer. -/
theorem c7_encoder_never_raises (bs : List Nat) :
    linear_to_mulaw_checked bs = Except.ok (linear_to_mulaw bs) := by
  rw [linear_to_mulaw_eq, linear_to_mulaw_checked_ok]

/-- C8 counterexample: an unparsable inbound message does terminate the
listener (the `try` wraps the whole `while True`, so the `json.loads`
exception exits the loop [fake_call.py, lines 119-130]): after a malformed
message, a subsequent well-formed media message is not processed (count
stays 0), though on its own it would be (count 1). -/
theorem c8_unparsable_stops_listener :
    listenCount [Option.none, some goodMediaMsg] = 0 ∧
    listenCount [some goodMediaMsg] = 1 := by
  exact ⟨rfl, rfl⟩

/-- C8 (amended): an inbound message that parses to a JSON object lacking
the `event` field is skipped and the loop continues — subsequent
well-formed messages are still received and processed; (an unparsable
message, by contrast, raises out of the loop and ends the listener). -/
theorem c8_missing_event_skipped (fields : List (String × Json))
    (rest : List (Option Json)) (count : Nat)
    (h : Json.getField (Json.obj fields) "event" = none) :
    listenFrom count (some (Json.obj fields) :: rest) = listenFrom count rest := by
  have hm : eventIsMedia (Json.obj fields) = false := by
    unfold eventIsMedia
    rw [h]
  conv_lhs => unfold listenFrom
  rw [hm]
  simp

/-- Witness for C8 (amended): an empty JSON object is skipped and the
following well-formed media message is still counted. -/
theorem c8_missing_event_skipped_witness :
    Json.getField (Json.obj []) "event" = none ∧
    listenFrom 0 [some (Json.obj []), some goodMediaMsg] =
      listenFrom 0 [some goodMediaMsg] :=
  ⟨rfl, c8_missing_event_skipped [] [some goodMediaMsg] 0 rfl⟩

/-- C9 counterexample: the stop envelope does not carry the stream
identifier at all (`{"event": "stop", "stop": {"callSid": ...}}`,
fake_call.py lines 185-188), so deserializing a serialized stop envelope
cannot recover the original (kind, stream-id, payload) triple. -/
theorem c9_stop_loses_stream_id :
    deserialize (serialize EventKind.stop "SIM_STREAM_001" [] metaSim) ≠
      some (EventKind.stop, some "SIM_STREAM_001", (none : Option (List Nat))) := by
  decide

/-- C9 (amended): deserializing a serialized envelope recovers the event
kind for all three kinds, and the full (kind, stream-id, payload) triple
for media; start envelopes carry the stream id only nested inside the
`start` object (where it is recoverable), and stop envelopes do not carry
it, so for start and stop the top-level stream id comes back absent. -/
theorem c9_roundtrip_amended (sid : String) (payload : List Nat) (meta : SessionMeta)
    (hp : ∀ b ∈ payload, b < 256) :
    deserialize (serialize EventKind.media sid payload meta) =
      some (EventKind.media, some sid, some payload) ∧
    deserialize (serialize EventKind.start sid payload meta) =
      some (EventKind.start, none, none) ∧
    ((serialize EventKind.start sid payload meta).getField "start").bind
      (fun j => j.getField "streamSid") = some (Json.str sid) ∧
    deserialize (serialize EventKind.stop sid payload meta) =
      some (EventKind.stop, none, none) := by
  have h1 : deserialize (serialize EventKind.media sid payload meta) =
      (match b64decode (b64encode payload) with
       | some bytes => some (EventKind.media, some sid, some bytes)
       | none => none) := rfl
  refine ⟨?_, rfl, rfl, rfl⟩
  rw [h1, b64_decode_encode payload hp]

/-- Witness for C9 (amended): the media round trip at a concrete stream id
and payload. -/
theorem c9_roundtrip_amended_witness :
    (∀ b ∈ [0, 255], b < 256) ∧
    deserialize (serialize EventKind.media "STREAM123" [0, 255] metaSim) =
      some (EventKind.media, some "STREAM123", some [0, 255]) :=
  ⟨by decide, (c9_roundtrip_amended "STREAM123" [0, 255] metaSim (by decide)).1⟩

/-- C10: every envelope the scripts serialize conforms to the wire schema:
the `event` field is one of "start", "media", "stop"; the media envelope
carries a top-level `streamSid` string and a `media.payload` string that is
the base64 text of the raw codec bytes (it decodes back to them); the start
envelope carries a `start` object with `callSid`, `streamSid`, `from`, `to`
and the string-keyed `customParameters` map; the stop envelope carries a
`stop` object with `callSid`. -/
theorem c10_wire_schema (sid : String) (payload : List Nat) (meta : SessionMeta)
    (hp : ∀ b ∈ payload, b < 256) :
    ((serialize EventKind.start sid payload meta).getField "event" = some (Json.str "start") ∧
     (serialize EventKind.media sid payload meta).getField "event" = some (Json.str "media") ∧
     (serialize EventKind.stop sid payload meta).getField "event" = some (Json.str "stop")) ∧
    ((serialize EventKind.media sid payload meta).getField "streamSid" = some (Json.str sid) ∧
     ∃ s : String,
       ((serialize EventKind.media sid payload meta).getField "media").bind
         (fun j => j.getField "payload") = some (Json.str s) ∧
       b64decode s.toList = some payload) ∧
    ((serialize EventKind.start sid payload meta).getField "start" =
      some (Json.obj [("callSid", Json.str meta.callSid), ("streamSid", Json.str sid),
        ("from", Json.str meta.fromNumber), ("to", Json.str meta.toNumber),
        ("customParameters",
          Json.obj (meta.customParameters.map fun kv => (kv.1, Json.str kv.2)))])) ∧
    ((serialize EventKind.stop sid payload meta).getField "stop" =
      some (Json.obj [("callSid", Json.str meta.callSid)])) := by
  refine ⟨⟨rfl, rfl, rfl⟩, ⟨rfl, String.mk (b64encode payload), rfl, ?_⟩, rfl, rfl⟩
  exact b64_decode_encode payload hp

/-- Witness for C10 at a concrete stream id, payload and metadata. -/
theorem c10_wire_schema_witness :
    (∀ b ∈ [0, 255], b < 256) ∧
    (serialize EventKind.media "SIM_STREAM_001" [0, 255] metaSim).getField "event" =
      some (Json.str "media") :=
  ⟨by decide, (c10_wire_schema "SIM_STREAM_001" [0, 255] metaSim (by decide)).1.2.1⟩

end FakeCall
